import Mathlib

/-!
Shallow embedding of the PixelSociety tick-based simulation engine
(`src/pixel_society/`): agents, tasks, events, world state and the
simulation orchestrator.  Python floats are modelled as exact rationals,
Python insertion-ordered dicts as association lists, and fallible code
(a keyword-splat that can raise `TypeError`) as `Option`.
-/

namespace PixelSociety

/-! ### Dict helpers

Python `dict` semantics: insertion-ordered; writing an existing key keeps
its position, writing a fresh key appends; `get(k, d)` yields a default. -/

def dictGetD {α : Type} (d : List (String × α)) (k : String) (dflt : α) : α :=
  match d.lookup k with
  | some v => v
  | none => dflt

def dictSet {α : Type} (d : List (String × α)) (k : String) (v : α) : List (String × α) :=
  if d.any (fun p => p.1 == k) then
    d.map (fun p => if p.1 == k then (k, v) else p)
  else d ++ [(k, v)]

/-- Python `max(a, b)`: the second argument only when it is strictly
larger.  (Mathlib's lattice `max` on `ℚ` does not reduce in the kernel, so
the engine uses this executable equivalent.) -/
def pymax (a b : ℚ) : ℚ := if a < b then b else a

/-- Python `min(a, b)`: the second argument only when it is strictly
smaller. -/
def pymin (a b : ℚ) : ℚ := if b < a then b else a

/-- Python `abs(x)`. -/
def pyabs (q : ℚ) : ℚ := if q < 0 then -q else q

lemma le_pymax_left (a b : ℚ) : a ≤ pymax a b := by
  unfold pymax; split
  · exact le_of_lt (by assumption)
  · exact le_refl a

lemma pymax_le (a b c : ℚ) (ha : a ≤ c) (hb : b ≤ c) : pymax a b ≤ c := by
  unfold pymax; split <;> assumption

lemma pymin_le_left (a b : ℚ) : pymin a b ≤ a := by
  unfold pymin; split
  · exact le_of_lt (by assumption)
  · exact le_refl a

/-- `max(0.0, min(1.0, x))`, the clamp used throughout the engine. -/
def clamp01 (q : ℚ) : ℚ := pymax 0 (pymin 1 q)

/-- `max(-1.0, min(1.0, x))`, the clamp used for traits and affinity. -/
def clampTrait (q : ℚ) : ℚ := pymax (-1) (pymin 1 q)

/-- Membership in the closed unit interval. -/
abbrev unit01 (q : ℚ) : Prop := 0 ≤ q ∧ q ≤ 1

/-- Two-decimal rendering of a rational, as Python `f"{x:.2f}"` renders the
floats this engine produces (all values relied on are exact hundredths). -/
def fmt2 (q : ℚ) : String :=
  let m : Int := (q * 100 + 1/2).floor
  let n : Nat := m.natAbs
  (if m < 0 then "-" else "") ++ toString (n / 100) ++ "." ++
    (if n % 100 < 10 then "0" else "") ++ toString (n % 100)

/-! ### `mbti.py` -/

structure MBTIPersonality where
  code : String
  description : String
  trait_modifiers : List (String × ℚ)
deriving DecidableEq

def TRAIT_KEYS : List String :=
  ["sociability", "creativity", "organization", "empathy", "rationality", "ambition"]

def make_profile (code : String) (sociability creativity organization empathy rationality ambition : ℚ)
    (description : String) : MBTIPersonality :=
  { code := code
    description := description
    trait_modifiers :=
      [("sociability", sociability), ("creativity", creativity), ("organization", organization),
       ("empathy", empathy), ("rationality", rationality), ("ambition", ambition)] }

def MBTI_PROFILES : List (String × MBTIPersonality) :=
  [("INTJ", make_profile "INTJ" (-(1/5)) (1/2) (2/5) (-(1/10)) (3/5) (1/2)
      "Strategic mastermind focused on long-term planning and innovation."),
   ("INFP", make_profile "INFP" (1/10) (3/5) (-(1/5)) (7/10) (-(1/10)) (1/5)
      "Idealistic dreamer driven by values and relationships."),
   ("ENTP", make_profile "ENTP" (1/2) (7/10) (-(3/10)) (1/10) (1/5) (2/5)
      "Energetic innovator who thrives on debate and new possibilities."),
   ("ESTJ", make_profile "ESTJ" (1/5) (-(1/5)) (7/10) (-(1/10)) (2/5) (3/5)
      "Efficient organizer focused on structure, tradition and leadership."),
   ("ESFP", make_profile "ESFP" (7/10) (3/10) (-(3/10)) (1/2) (-(1/5)) (1/5)
      "Vibrant performer who seeks excitement and social connection."),
   ("ISFJ", make_profile "ISFJ" (-(1/10)) (-(1/10)) (3/5) (3/5) (1/10) (-(1/10))
      "Loyal caretaker prioritizing harmony and practical support."),
   ("ENTJ", make_profile "ENTJ" (2/5) (1/5) (3/5) (-(1/5)) (1/2) (4/5)
      "Commanding leader focused on achievement and strategic execution."),
   ("ISTP", make_profile "ISTP" (-(1/5)) (3/10) (-(1/10)) (-(1/5)) (2/5) (1/10)
      "Curious problem-solver who prefers hands-on experimentation.")]

/-- ASCII uppercasing of one character.  (`String.toUpper` from the library
is compiled by well-founded recursion and does not reduce; the personality
codes this engine compares are ASCII, where this map agrees with Python
`str.upper()`.) -/
def pyUpperChar (c : Char) : Char :=
  if 97 ≤ c.toNat ∧ c.toNat ≤ 122 then Char.ofNat (c.toNat - 32) else c

/-- `code.upper()` for ASCII strings. -/
def pyToUpper (s : String) : String := String.mk (s.data.map pyUpperChar)

/-- Case-insensitive lookup with a neutral (all-zero) fallback. -/
def personality_for (code : String) : MBTIPersonality :=
  match MBTI_PROFILES.lookup (pyToUpper code) with
  | some p => p
  | none =>
    { code := pyToUpper code
      description := "Custom personality"
      trait_modifiers := TRAIT_KEYS.map (fun k => (k, 0)) }

/-! ### `world.py` -/

structure Region where
  name : String
  resources : List (String × ℚ)
  culture_focus : String
  population : Nat := 0
deriving DecidableEq

structure World where
  name : String
  economy : ℚ := 1/2
  culture : ℚ := 1/2
  stability : ℚ := 1/2
  regions : List (String × Region) := []
  agent_locations : List (String × String) := []
  event_log : List String := []
  tick_count : Nat := 0
deriving DecidableEq

def World.add_region (w : World) (region : Region) : World :=
  { w with regions := dictSet w.regions region.name region }

def World.place_agent (w : World) (agent_name region_name : String) : World :=
  let w1 := { w with agent_locations := dictSet w.agent_locations agent_name region_name }
  match w1.regions.lookup region_name with
  | some reg =>
    { w1 with regions := dictSet w1.regions region_name { reg with population := reg.population + 1 } }
  | none => w1

def World.record_event (w : World) (description : String) : World :=
  { w with event_log := w.event_log ++ ["[Tick " ++ toString w.tick_count ++ "] " ++ description] }

def World.adjust_global_state (w : World) (economy culture stability : ℚ) : World :=
  { w with
    economy := clamp01 (w.economy + economy)
    culture := clamp01 (w.culture + culture)
    stability := clamp01 (w.stability + stability) }

def World.tick (w : World) : World := { w with tick_count := w.tick_count + 1 }

/-! ### `agents.py`: value types -/

structure EmotionState where
  happiness : ℚ := 1/2
  stress : ℚ := 1/5
  energy : ℚ := 7/10
deriving DecidableEq

def EmotionState.clamp (e : EmotionState) : EmotionState :=
  { happiness := clamp01 e.happiness, stress := clamp01 e.stress, energy := clamp01 e.energy }

structure Relationship where
  other : String
  closeness : ℚ := 1/10
  trust : ℚ := 1/10
  sentiment : String := "neutral"
deriving DecidableEq

/-- The sentiment rule of `Relationship.adjust` (`agents.py` lines 37-42). -/
def sentimentFor (trust closeness : ℚ) : String :=
  if 7/10 < trust ∧ 6/10 < closeness then "ally"
  else if trust < 3/10 ∧ closeness < 3/10 then "rival"
  else "neutral"

def Relationship.adjust (r : Relationship) (closeness trust : ℚ) : Relationship :=
  let c := clamp01 (r.closeness + closeness)
  let t := clamp01 (r.trust + trust)
  { r with closeness := c, trust := t, sentiment := sentimentFor t c }

/-! ### `agents.py`: agent state (all fields except the task list)

`Task.advance` receives the acting agent but never reads or writes its task
list, so tasks are split off into `Agent` below; this breaks the otherwise
non-strictly-positive mutual recursion between `Task` (whose custom progress
function consumes an agent) and the agent holding tasks. -/

structure AgentState where
  name : String
  mbti_code : String
  prompt : Option String := none
  occupation : String := "Unassigned"
  skills : List (String × ℚ) := []
  resources : List (String × ℚ) := [("money", 100), ("time", 40)]
  motivations : List String := []
  values : List String := []
  relationships : List (String × Relationship) := []
  emotion : EmotionState := {}
  traits : List (String × ℚ) := []
deriving DecidableEq

def AgentState.customize (a : AgentState) (trait_overrides : List (String × ℚ))
    (motivations : List String) (vals : List String) : AgentState :=
  let traits := trait_overrides.foldl
    (fun ts kv =>
      if TRAIT_KEYS.contains kv.1 then
        dictSet ts kv.1 (clampTrait (dictGetD ts kv.1 0 + kv.2))
      else ts)
    a.traits
  { a with
    traits := traits
    motivations := a.motivations ++ motivations
    values := a.values ++ vals }

def AgentState.get_relationship (a : AgentState) (other : String) : Relationship × AgentState :=
  match a.relationships.lookup other with
  | some r => (r, a)
  | none =>
    let r : Relationship := { other := other }
    (r, { a with relationships := dictSet a.relationships other r })

def AgentState.influence_relationship (a : AgentState) (other : String) (affinity : ℚ) : AgentState :=
  let p := a.get_relationship other
  { p.2 with
    relationships := dictSet p.2.relationships other (p.1.adjust (1/10 * affinity) (1/10 * affinity)) }

def AgentState.adjust_resources (a : AgentState) (money time : ℚ) : AgentState :=
  let res1 := dictSet a.resources "money" (pymax 0 (dictGetD a.resources "money" 0 + money))
  let res2 := dictSet res1 "time" (pymax 0 (dictGetD res1 "time" 0 + time))
  { a with resources := res2 }

def AgentState.adjust_emotion (a : AgentState) (happiness stress energy : ℚ) : AgentState :=
  let e : EmotionState :=
    ⟨a.emotion.happiness + happiness, a.emotion.stress + stress, a.emotion.energy + energy⟩
  { a with emotion := e.clamp }

/-! ### `tasks.py` -/

structure TaskFeedback where
  task_name : String
  progress_delta : ℚ
  completed : Bool
  message : String
deriving DecidableEq

def ProgressFunction : Type := AgentState → World → ℚ

structure Task where
  name : String
  description : String
  required_progress : ℚ := 1
  difficulty : ℚ := 1
  progress_function : Option ProgressFunction := none
  resources_required : List (String × ℚ) := []
  completed : Bool := false
  progress : ℚ := 0

/-- The resource check of `Task.advance` (lines 43-51): the first required
resource the agent cannot cover, scanning `resources_required` in order. -/
def checkResources : List (String × ℚ) → List (String × ℚ) → Option String
  | [], _ => none
  | (r, amount) :: rest, res =>
    if dictGetD res r 0 < amount then some r else checkResources rest res

/-- `agent.adjust_resources(**\x7bresource: delta\x7d)`: the keyword splat is
accepted only for the parameters `money` and `time`; any other resource name
raises `TypeError`, modelled as `none`. -/
def applyResourceDelta (a : AgentState) (resource : String) (delta : ℚ) : Option AgentState :=
  if resource = "money" then some (a.adjust_resources delta 0)
  else if resource = "time" then some (a.adjust_resources 0 delta)
  else none

/-- The deduction loop of `Task.advance` (lines 53-54). -/
def deductAll : List (String × ℚ) → AgentState → Option AgentState
  | [], a => some a
  | (r, amount) :: rest, a =>
    match applyResourceDelta a r (-amount) with
    | none => none
    | some a1 => deductAll rest a1

def Task.advance (t : Task) (a : AgentState) (w : World) : Option (Task × AgentState × TaskFeedback) :=
  if t.completed then
    some (t, a, { task_name := t.name, progress_delta := 0, completed := true,
                  message := "Task already completed." })
  else
    match checkResources t.resources_required a.resources with
    | some r =>
      some (t, a.adjust_emotion 0 (1/20) 0,
        { task_name := t.name, progress_delta := 0, completed := false,
          message := "Insufficient " ++ r ++ " to progress " ++ t.name ++ "." })
    | none =>
      match deductAll t.resources_required a with
      | none => none
      | some a1 =>
        let delta0 : ℚ :=
          match t.progress_function with
          | some f => f a1 w
          | none =>
            let creativity := dictGetD a1.traits "creativity" 0
            let organization := dictGetD a1.traits "organization" 0
            let skill_bonus : ℚ :=
              match a1.skills.map Prod.snd with
              | [] => 1/10
              | v :: vs => vs.foldl pymax v
            pymax (1/20) (1/5 + creativity * (1/10) + organization * (1/20) + skill_bonus * (1/5))
        let delta := delta0 / pymax (1/2) t.difficulty
        let t1 := { t with progress := t.progress + delta }
        if t1.progress ≥ t1.required_progress then
          some ({ t1 with completed := true }, a1.adjust_emotion (1/10) (-(1/10)) 0,
            { task_name := t.name, progress_delta := delta, completed := true,
              message := "Completed task " ++ t.name ++ "!" })
        else
          some (t1, a1,
            { task_name := t.name, progress_delta := delta, completed := false,
              message := "Progressed " ++ t.name ++ " by " ++ fmt2 delta })

/-- `Task.advance` iterated: the task and agent threaded through repeated
calls, feedback collected in order. -/
def iterAdvance : Nat → Task → AgentState → World → Option (Task × AgentState × List TaskFeedback)
  | 0, t, a, _ => some (t, a, [])
  | n + 1, t, a, w =>
    match Task.advance t a w with
    | none => none
    | some (t1, a1, fb) =>
      match iterAdvance n t1 a1 w with
      | none => none
      | some (t2, a2, fbs) => some (t2, a2, fb :: fbs)

/-! ### `agents.py`: the full agent -/

structure Agent extends AgentState where
  tasks : List Task

/-- Construct an agent as the dataclass plus `__post_init__` does: default
resources and emotion, traits seeded from the personality table. -/
def mkAgent (name mbti_code : String) : Agent :=
  { name := name
    mbti_code := mbti_code
    traits := (personality_for mbti_code).trait_modifiers
    tasks := [] }

def Agent.assign_task (a : Agent) (t : Task) : Agent :=
  { a with tasks := a.tasks ++ [t] }

def Agent.adjust_emotion (a : Agent) (happiness stress energy : ℚ) : Agent :=
  { a with toAgentState := a.toAgentState.adjust_emotion happiness stress energy }

def Agent.influence_relationship (a : Agent) (other : String) (affinity : ℚ) : Agent :=
  { a with toAgentState := a.toAgentState.influence_relationship other affinity }

/-- The loop body of `Agent.advance_tasks`: advance each task in order,
keep the ones not completed, collect feedback in order. -/
def advanceTasks : List Task → AgentState → World → Option (AgentState × List Task × List TaskFeedback)
  | [], a, _ => some (a, [], [])
  | t :: ts, a, w =>
    match Task.advance t a w with
    | none => none
    | some (t1, a1, fb) =>
      match advanceTasks ts a1 w with
      | none => none
      | some (a2, rest, fbs) =>
        some (a2, (if t1.completed then rest else t1 :: rest), fb :: fbs)

def Agent.tick (a : Agent) (w : World) : Option (Agent × List TaskFeedback) :=
  let st0 := a.toAgentState
  let st1 :=
    if dictGetD st0.resources "time" 0 < 10 then st0.adjust_emotion 0 (1/20) 0
    else st0.adjust_emotion (1/50) (-(1/50)) 0
  let st2 := st1.adjust_resources 0 5
  match advanceTasks a.tasks st2 w with
  | none => none
  | some (st3, ts, fbs) =>
    let st4 := { st3 with
      relationships := st3.relationships.map (fun p => (p.1, p.2.adjust (-(1/50)) (-(1/100)))) }
    some ({ toAgentState := st4, tasks := ts }, fbs)

/-! ### `events.py` -/

def WorldEffect : Type := World → World

def AgentEffect : Type := AgentState → World → AgentState

structure Event where
  name : String
  description : String
  world_effect : Option WorldEffect := none
  agent_effects : List AgentEffect := []

def Event.apply (e : Event) (w : World) (ags : List (String × Agent)) :
    World × List (String × Agent) :=
  let w1 := match e.world_effect with
    | some f => f w
    | none => w
  let ags1 := e.agent_effects.foldl
    (fun acc eff => acc.map (fun p => (p.1, { p.2 with toAgentState := eff p.2.toAgentState w1 })))
    ags
  (w1.record_event e.description, ags1)

/-! ### `simulation.py` -/

/-- Modelled from the spec: the single seeded random stream owned by the
Simulation.  CPython `random.Random` (a Mersenne Twister) is outside the
repository; it is modelled as a deterministic stream keyed by the seed: a
linear congruential generator driving the same backwards Fisher-Yates walk
as `random.shuffle`, drawing below `i + 1` at position `i`. -/
structure Rng where
  state : Nat
deriving DecidableEq

def mkRng (seed : Int) : Rng := ⟨seed.natAbs⟩

def Rng.next (r : Rng) : Nat × Rng :=
  let s := (r.state * 1103515245 + 12345) % 2147483648
  (s, ⟨s⟩)

def Rng.randbelow (r : Rng) (n : Nat) : Nat × Rng :=
  let p := r.next
  (p.1 % n, p.2)

def listSwap {α : Type} (l : List α) (i j : Nat) : List α :=
  match l.get? i, l.get? j with
  | some a, some b => (l.set i b).set j a
  | _, _ => l

def shuffleAux {α : Type} : Nat → List α → Rng → List α × Rng
  | 0, l, r => (l, r)
  | k + 1, l, r =>
    let p := r.randbelow (k + 2)
    shuffleAux k (listSwap l (k + 1) p.1) p.2

def shuffleRng {α : Type} (r : Rng) (l : List α) : List α × Rng :=
  shuffleAux (l.length - 1) l r

structure ScheduledEvent where
  tick : Nat
  event : Event

structure SimulationResult where
  tick : Nat
  feedback : List (String × List String)
  events : List String
deriving DecidableEq

structure Simulation where
  world : World
  seed : Int
  rng : Rng
  agents : List (String × Agent)
  scheduled_events : List ScheduledEvent
  history : List SimulationResult

/-- The constructor: `self.seed = seed or random.randint(0, 99999)`.  A
missing seed and the (falsy) seed 0 both fall back to a fresh draw from the
ambient global RNG, modelled as the explicit `fresh_seed` input. -/
def Simulation.init (world : World) (seed : Option Int) (fresh_seed : Int) : Simulation :=
  let s : Int :=
    match seed with
    | none => fresh_seed
    | some v => if v = 0 then fresh_seed else v
  { world := world, seed := s, rng := mkRng s, agents := [], scheduled_events := [], history := [] }

def Simulation.add_agent (s : Simulation) (a : Agent) (region : Option String) : Simulation :=
  let s1 := { s with agents := dictSet s.agents a.name a }
  match region with
  | some r => { s1 with world := s1.world.place_agent a.name r }
  | none => s1

def Simulation.add_region (s : Simulation) (name : String)
    (resources : Option (List (String × ℚ))) (culture_focus : String) : Simulation :=
  let region : Region :=
    { name := name, resources := resources.getD [("food", 50), ("energy", 30)],
      culture_focus := culture_focus }
  { s with world := s.world.add_region region }

def Simulation.schedule_event (s : Simulation) (e : Event) (in_ticks : Nat) : Simulation :=
  { s with scheduled_events := s.scheduled_events ++ [⟨s.world.tick_count + in_ticks, e⟩] }

structure TriggerOut where
  world : World
  ags : List (String × Agent)
  triggered : List String
  pending : List ScheduledEvent

/-- `Simulation._trigger_events`: scan the scheduled list in order, firing
each event due against the current world (whose tick counter an earlier
effect may have changed mid-scan), keeping the rest pending. -/
def triggerEvents (w : World) (ags : List (String × Agent)) (scheduled : List ScheduledEvent) :
    TriggerOut :=
  scheduled.foldl
    (fun acc se =>
      if se.tick ≤ acc.world.tick_count then
        let p := se.event.apply acc.world acc.ags
        { acc with world := p.1, ags := p.2, triggered := acc.triggered ++ [se.event.description] }
      else { acc with pending := acc.pending ++ [se] })
    { world := w, ags := ags, triggered := [], pending := [] }

/-- The per-agent update loop of `Simulation.tick`: each agent ticks against
the (unchanging) world, feedback messages keyed by agent name in registry
order. -/
def agentPhase : List (String × Agent) → World → Option (List (String × Agent) × List (String × List String))
  | [], _ => some ([], [])
  | (n, a) :: rest, w =>
    match a.tick w with
    | none => none
    | some (a1, fbs) =>
      match agentPhase rest w with
      | none => none
      | some (rest1, fb) => some ((n, a1) :: rest1, (a.name, fbs.map (fun f => f.message)) :: fb)

/-- `Simulation._handle_interaction` on a pair of registry keys. -/
def handleInteraction (ags : List (String × Agent)) (na nb : String) : List (String × Agent) :=
  match ags.lookup na, ags.lookup nb with
  | some a, some b =>
    let affinity0 : ℚ := 1/10
      + 1/10 * (1 - pyabs (dictGetD a.traits "sociability" 0 - dictGetD b.traits "sociability" 0))
      + 1/20 * (1 - pyabs (dictGetD a.traits "empathy" 0 - dictGetD b.traits "empathy" 0))
      - 1/20 * pyabs (dictGetD a.traits "organization" 0 - dictGetD b.traits "organization" 0)
    let affinity := clampTrait affinity0
    let a1 := a.influence_relationship nb affinity
    let b1 := b.influence_relationship na affinity
    let a2 := if 0 < affinity then a1.adjust_emotion (1/50) 0 0 else a1.adjust_emotion 0 (1/50) 0
    let b2 := if 0 < affinity then b1.adjust_emotion (1/50) 0 0 else b1.adjust_emotion 0 (1/50) 0
    dictSet (dictSet ags na a2) nb b2
  | _, _ => ags

/-- `Simulation._select_pairs`: consecutive pairs of the shuffled order,
the last element skipped when the count is odd. -/
def pairsOf : List String → List (String × String)
  | a :: b :: rest => (a, b) :: pairsOf rest
  | _ => []

def socialPhase (rng : Rng) (ags : List (String × Agent)) : List (String × Agent) × Rng :=
  let p := shuffleRng rng (ags.map Prod.fst)
  ((pairsOf p.1).foldl (fun acc pr => handleInteraction acc pr.1 pr.2) ags, p.2)

def applyWorldFeedback (w : World) (ags : List (String × Agent)) : World :=
  if ags.isEmpty then w
  else
    let n : ℚ := ags.length
    let avg_ambition := ((ags.map (fun p => dictGetD p.2.traits "ambition" 0)).sum) / n
    let avg_happiness := ((ags.map (fun p => p.2.emotion.happiness)).sum) / n
    let avg_stress := ((ags.map (fun p => p.2.emotion.stress)).sum) / n
    w.adjust_global_state (1/50 * avg_ambition - 1/100 * avg_stress)
      (1/100 * avg_happiness)
      (1/50 * avg_happiness - 3/200 * avg_stress)

def Simulation.tick (s : Simulation) : Option (Simulation × SimulationResult) :=
  let w1 := s.world.tick
  let t := triggerEvents w1 s.agents s.scheduled_events
  match agentPhase t.ags t.world with
  | none => none
  | some (ags3, feedback) =>
    let sp := socialPhase s.rng ags3
    let w3 := applyWorldFeedback t.world sp.1
    let result : SimulationResult :=
      { tick := w3.tick_count, feedback := feedback, events := t.triggered }
    let s1 : Simulation :=
      { s with
        world := w3
        agents := sp.1
        scheduled_events := t.pending
        rng := sp.2
        history := s.history ++ [result] }
    some (s1, result)

/-- `Simulation.run(steps)`: `steps` consecutive ticks, results in order;
`none` when an exception escapes some tick. -/
def Simulation.runAux : Simulation → Nat → Option (List SimulationResult)
  | _, 0 => some []
  | s, n + 1 =>
    match s.tick with
    | none => none
    | some (s1, r) =>
      match s1.runAux n with
      | none => none
      | some rs => some (r :: rs)

/-! ### Building a configured simulation -/

/-- One configuration call made against a fresh simulation. -/
inductive BuildOp where
  | addAgent (a : Agent) (region : Option String)
  | addRegion (name : String) (resources : Option (List (String × ℚ))) (culture_focus : String)
  | scheduleEvent (e : Event) (in_ticks : Nat)

def applyBuildOp (s : Simulation) : BuildOp → Simulation
  | .addAgent a region => s.add_agent a region
  | .addRegion n res focus => s.add_region n res focus
  | .scheduleEvent e k => s.schedule_event e k

/-- Construct a simulation and replay a configuration sequence against it. -/
def buildSim (w : World) (seed : Option Int) (fresh_seed : Int) (ops : List BuildOp) : Simulation :=
  ops.foldl applyBuildOp (Simulation.init w seed fresh_seed)

/-- Whether a tick result lists the given event description. -/
def hasEvent (d : String) (r : SimulationResult) : Bool := r.events.contains d

/-! ### Concrete scenario objects used by witnesses and counterexamples -/

def w0 : World := { name := "Terra" }

/-- A custom progress function that reports the acting agent's happiness;
its two-decimal rendering surfaces in the tick feedback messages. -/
def taskQ : Task :=
  { name := "quest", description := "long quest", required_progress := 100,
    progress_function := some (fun a _ => a.emotion.happiness) }

def agX : Agent := (mkAgent "X" "QQQQ").assign_task taskQ

def opsC1 : List BuildOp :=
  [.addAgent agX none, .addAgent (mkAgent "Y" "QQQQ") none, .addAgent (mkAgent "Z" "QQQQ") none]

def a4 : AgentState := (mkAgent "Bob" "QQQQ").toAgentState

def t4 : Task := { name := "build", description := "building", required_progress := 2 }

def tC2 : Task := { name := "ship", description := "shipping", resources_required := [("time", 8)] }

def aC2 : AgentState := { a4 with resources := [("money", 100), ("time", 5)] }

def tF : Task := { name := "gather", description := "gathering", resources_required := [("food", 1)] }

def aF : AgentState := { a4 with resources := [("money", 100), ("time", 40), ("food", 5)] }

def e0 : Event := { name := "storm", description := "boom" }

/-! ### Helper lemmas -/

attribute [local semireducible] Rat.mul Rat.inv Rat.add Rat.sub

lemma clamp01_unit (q : ℚ) : unit01 (clamp01 q) :=
  ⟨le_pymax_left 0 _, pymax_le _ _ _ (by norm_num) (le_trans (pymin_le_left 1 q) (le_refl 1))⟩

lemma clampTrait_bounds (q : ℚ) : -1 ≤ clampTrait q ∧ clampTrait q ≤ 1 :=
  ⟨le_pymax_left _ _, pymax_le _ _ _ (by norm_num) (pymin_le_left 1 q)⟩

lemma lookup_mem_snd {α : Type} (k : String) (v : α) :
    ∀ l : List (String × α), l.lookup k = some v → v ∈ l.map Prod.snd := by
  intro l
  induction l with
  | nil => intro h; simp [List.lookup] at h
  | cons p t ih =>
    intro h
    simp only [List.lookup] at h
    by_cases hk : k == p.1
    · rw [hk] at h
      simp at h
      simp [← h]
    · simp only [hk] at h
      simp [ih h]

lemma lookup_none_not_key {α : Type} (k : String) :
    ∀ l : List (String × α), l.lookup k = none → ∀ p ∈ l, p.1 ≠ k := by
  intro l
  induction l with
  | nil => intro _ p hp; cases hp
  | cons q t ih =>
    intro h p hp
    simp only [List.lookup] at h
    by_cases hk : k == q.1
    · rw [hk] at h; cases h
    · simp only [hk] at h
      rcases List.mem_cons.mp hp with hp | hp
      · subst hp
        intro he
        exact hk (by simp [he])
      · exact ih h p hp

lemma dictSet_of_lookup_none {α : Type} (d : List (String × α)) (k : String) (v : α)
    (h : d.lookup k = none) : dictSet d k v = d ++ [(k, v)] := by
  unfold dictSet
  have hany : d.any (fun p => p.1 == k) = false := by
    rw [List.any_eq_false]
    intro p hp
    have := lookup_none_not_key k d h p hp
    simpa using this
  rw [hany]
  simp

lemma map_keep_of_not_key {α : Type} (k : String) (v' : α) :
    ∀ d : List (String × α), (∀ p ∈ d, p.1 ≠ k) →
      d.map (fun p => if p.1 == k then (k, v') else p) = d := by
  intro d
  induction d with
  | nil => intro _; rfl
  | cons q t ih =>
    intro h
    have hq : ¬ (q.1 == k) = true := by simpa using h q (by simp)
    simp only [List.map_cons]
    rw [if_neg hq, ih (fun p hp => h p (by simp [hp]))]

lemma dictSet_append_last {α : Type} (d : List (String × α)) (k : String) (v v' : α)
    (h : d.lookup k = none) : dictSet (d ++ [(k, v)]) k v' = d ++ [(k, v')] := by
  unfold dictSet
  have hany : (d ++ [(k, v)]).any (fun p => p.1 == k) = true := by
    simp [List.any_append]
  rw [hany]
  simp only [List.map_append]
  rw [map_keep_of_not_key k v' d (lookup_none_not_key k d h)]
  simp

lemma dictSet_snd_mem {α : Type} (d : List (String × α)) (k : String) (v x : α)
    (hx : x ∈ (dictSet d k v).map Prod.snd) : x ∈ d.map Prod.snd ∨ x = v := by
  unfold dictSet at hx
  split at hx
  · simp only [List.map_map, List.mem_map, Function.comp] at hx
    obtain ⟨p, hp, he⟩ := hx
    by_cases hk : p.1 == k
    · right
      rw [if_pos hk] at he
      exact he.symm
    · left
      rw [if_neg hk] at he
      exact List.mem_map.mpr ⟨p, hp, he⟩
  · rw [List.map_append] at hx
    rcases List.mem_append.mp hx with hx | hx
    · exact Or.inl hx
    · right
      simpa using hx

lemma checkResources_first (res : List (String × ℚ)) :
    ∀ (req : List (String × ℚ)) (k : Nat) (r : String) (amount : ℚ),
      req.get? k = some (r, amount) →
      dictGetD res r 0 < amount →
      (∀ j, j < k → ∀ p, req.get? j = some p → ¬ dictGetD res p.1 0 < p.2) →
      checkResources req res = some r := by
  intro req
  induction req with
  | nil => intro k r amount hk; simp at hk
  | cons q rest ih =>
    intro k r amount hk hmiss hbefore
    cases k with
    | zero =>
      simp at hk
      subst hk
      show checkResources ((r, amount) :: rest) res = some r
      unfold checkResources
      rw [if_pos hmiss]
    | succ k1 =>
      have hq : ¬ dictGetD res q.1 0 < q.2 := hbefore 0 (Nat.succ_pos k1) q rfl
      obtain ⟨q1, q2⟩ := q
      show checkResources ((q1, q2) :: rest) res = some r
      unfold checkResources
      rw [if_neg hq]
      refine ih k1 r amount (by simpa using hk) hmiss ?_
      intro j hj p hp
      exact hbefore (j + 1) (Nat.succ_lt_succ hj) p (by simpa using hp)

/-! ### Claim theorems -/

/-- Claim C2: whenever some required resource of a not-yet-completed task is
short (the agent's amount is below the requirement), `Task.advance` returns a
failure feedback naming the first missing resource in `resources_required`
order, returns the task itself (accumulated progress unchanged), and leaves
the agent's resources untouched: the check over all required resources runs
before any deduction, and the shortfall branch deducts nothing. -/
theorem advance_shortfall_reports_first_missing (t : Task) (a : AgentState) (w : World)
    (k : Nat) (r : String) (amount : ℚ)
    (hc : t.completed = false)
    (hk : t.resources_required.get? k = some (r, amount))
    (hmiss : dictGetD a.resources r 0 < amount)
    (hbefore : ∀ j, j < k → ∀ p, t.resources_required.get? j = some p →
      ¬ dictGetD a.resources p.1 0 < p.2) :
    Task.advance t a w =
      some (t, a.adjust_emotion 0 (1/20) 0,
        ⟨t.name, 0, false, "Insufficient " ++ r ++ " to progress " ++ t.name ++ "."⟩) ∧
    (a.adjust_emotion 0 (1/20) 0).resources = a.resources := by
  have hcheck : checkResources t.resources_required a.resources = some r :=
    checkResources_first a.resources t.resources_required k r amount hk hmiss hbefore
  constructor
  · unfold Task.advance
    rw [hc, hcheck]
    simp
  · simp [AgentState.adjust_emotion]

theorem advance_shortfall_reports_first_missing_witness :
    tC2.completed = false ∧
    tC2.resources_required.get? 0 = some ("time", 8) ∧
    dictGetD aC2.resources "time" 0 < 8 ∧
    (Task.advance tC2 aC2 w0 =
      some (tC2, aC2.adjust_emotion 0 (1/20) 0,
        ⟨tC2.name, 0, false, "Insufficient " ++ "time" ++ " to progress " ++ tC2.name ++ "."⟩) ∧
      (aC2.adjust_emotion 0 (1/20) 0).resources = aC2.resources) := by
  refine ⟨rfl, rfl, by decide, ?_⟩
  exact advance_shortfall_reports_first_missing tC2 aC2 w0 0 "time" 8 rfl rfl (by decide)
    (fun j hj => absurd hj (Nat.not_lt_zero j))

/-- Claim C3 counterexample: on a resource shortfall the agent state IS
mutated: with initial stress 1/5 the returned agent has stress 1/4, so the
claim that emotion is exactly as before the call is false. -/
theorem shortfall_mutates_stress :
    (Task.advance tC2 aC2 w0).map (fun p => p.2.1.emotion.stress) = some (1/4) ∧
    aC2.emotion.stress = 1/5 ∧ ((1 : ℚ)/4) ≠ 1/5 := by
  refine ⟨by decide, by decide, by norm_num⟩

/-- Claim C3 (amended): on a resource shortfall nothing is mutated except the
agent's stress, which is raised by 1/20 and clamped: the agent's resources,
skills, relationships and traits and the task itself are returned exactly as
before the call, and the feedback carries zero delta and the shortfall text. -/
theorem shortfall_mutates_only_stress (t : Task) (a : AgentState) (w : World) (r : String)
    (hc : t.completed = false)
    (hcheck : checkResources t.resources_required a.resources = some r) :
    Task.advance t a w =
      some (t, a.adjust_emotion 0 (1/20) 0,
        ⟨t.name, 0, false, "Insufficient " ++ r ++ " to progress " ++ t.name ++ "."⟩) ∧
    (a.adjust_emotion 0 (1/20) 0).resources = a.resources ∧
    (a.adjust_emotion 0 (1/20) 0).skills = a.skills ∧
    (a.adjust_emotion 0 (1/20) 0).relationships = a.relationships ∧
    (a.adjust_emotion 0 (1/20) 0).traits = a.traits ∧
    (a.adjust_emotion 0 (1/20) 0).emotion =
      EmotionState.clamp ⟨a.emotion.happiness, a.emotion.stress + 1/20, a.emotion.energy⟩ := by
  refine ⟨?_, rfl, rfl, rfl, rfl, ?_⟩
  · unfold Task.advance
    rw [hc, hcheck]
    simp
  · simp [AgentState.adjust_emotion]

theorem shortfall_mutates_only_stress_witness :
    tC2.completed = false ∧
    checkResources tC2.resources_required aC2.resources = some "time" ∧
    (Task.advance tC2 aC2 w0 =
      some (tC2, aC2.adjust_emotion 0 (1/20) 0,
        ⟨tC2.name, 0, false, "Insufficient " ++ "time" ++ " to progress " ++ tC2.name ++ "."⟩) ∧
      (aC2.adjust_emotion 0 (1/20) 0).resources = aC2.resources ∧
      (aC2.adjust_emotion 0 (1/20) 0).skills = aC2.skills ∧
      (aC2.adjust_emotion 0 (1/20) 0).relationships = aC2.relationships ∧
      (aC2.adjust_emotion 0 (1/20) 0).traits = aC2.traits ∧
      (aC2.adjust_emotion 0 (1/20) 0).emotion =
        EmotionState.clamp ⟨aC2.emotion.happiness, aC2.emotion.stress + 1/20, aC2.emotion.energy⟩) :=
  ⟨rfl, rfl, shortfall_mutates_only_stress tC2 aC2 w0 "time" rfl rfl⟩

/-- Claim C4 counterexample: for a fresh default task (required progress 2,
difficulty 1) and an agent with zero creativity and organization and no
skills, the first `advance` adds 11/50 = 0.22 — the no-skill bonus is 1/10,
so the default delta is 1/5 + (1/10)(1/5) — not the claimed 1/5 = 0.2. -/
theorem default_progress_delta_is_22_hundredths :
    (Task.advance t4 a4 w0).map (fun p => p.2.2.progress_delta) = some (11/50) ∧
    dictGetD a4.traits "creativity" 0 = 0 ∧
    dictGetD a4.traits "organization" 0 = 0 ∧
    a4.skills = [] ∧
    ((11 : ℚ)/50) ≠ 1/5 := by
  refine ⟨by decide, by decide, by decide, by decide, by norm_num⟩

/-- Claim C4 (amended): for a task with required progress 2, difficulty 1,
no custom progress function and no required resources, advanced by an agent
with zero creativity and organization and no skills, every call adds exactly
11/50 = 0.22 (the 1/20 floor is not triggered), the first nine calls emit a
progress message, and the task completes with a completion message precisely
on the 10th call, at accumulated progress 11/5. -/
theorem default_task_completes_on_tenth_call :
    (iterAdvance 10 t4 a4 w0).map
        (fun p => (p.1.completed, p.1.progress,
          p.2.2.map (fun fb => (fb.progress_delta, fb.completed, fb.message)))) =
      some (true, 11/5,
        List.replicate 9 ((11 : ℚ)/50, false, "Progressed build by 0.22") ++
          [((11 : ℚ)/50, true, "Completed task build!")]) := by
  decide

/-- Claim C7: after every relationship update the sentiment equals a pure
function of the resulting (trust, closeness) pair, with strict thresholds:
trust above 7/10 and closeness above 6/10 give ally, trust and closeness both
below 3/10 give rival, everything else neutral; an update landing exactly on
trust 7/10 and closeness 3/5 yields neutral, while 71/100 and 61/100 yield
ally. -/
theorem sentiment_pure_function_of_pair :
    (∀ (r : Relationship) (dc dt : ℚ),
      (r.adjust dc dt).sentiment = sentimentFor (r.adjust dc dt).trust (r.adjust dc dt).closeness) ∧
    (∀ t c : ℚ,
      (7/10 < t → 6/10 < c → sentimentFor t c = "ally") ∧
      (t < 3/10 → c < 3/10 → sentimentFor t c = "rival") ∧
      (¬ (7/10 < t ∧ 6/10 < c) → ¬ (t < 3/10 ∧ c < 3/10) → sentimentFor t c = "neutral")) ∧
    (Relationship.adjust ⟨"o", 1/2, 3/5, "x"⟩ (1/10) (1/10)).trust = 7/10 ∧
    (Relationship.adjust ⟨"o", 1/2, 3/5, "x"⟩ (1/10) (1/10)).closeness = 3/5 ∧
    (Relationship.adjust ⟨"o", 1/2, 3/5, "x"⟩ (1/10) (1/10)).sentiment = "neutral" ∧
    (Relationship.adjust ⟨"o", 51/100, 61/100, "x"⟩ (1/10) (1/10)).trust = 71/100 ∧
    (Relationship.adjust ⟨"o", 51/100, 61/100, "x"⟩ (1/10) (1/10)).closeness = 61/100 ∧
    (Relationship.adjust ⟨"o", 51/100, 61/100, "x"⟩ (1/10) (1/10)).sentiment = "ally" := by
  refine ⟨fun r dc dt => rfl, fun t c => ⟨?_, ?_, ?_⟩, by decide, by decide, by decide,
    by decide, by decide, by decide⟩
  · intro h1 h2
    simp [sentimentFor, h1, h2]
  · intro h1 h2
    have hn : ¬ (7/10 < t ∧ 6/10 < c) := by
      rintro ⟨ha, _⟩
      have : t < t := lt_trans h1 (lt_trans (by norm_num) ha)
      exact absurd this (lt_irrefl t)
    simp [sentimentFor, hn, h1, h2]
  · intro h1 h2
    simp [sentimentFor, h1, h2]

theorem sentiment_pure_function_of_pair_witness :
    ((7 : ℚ)/10 < 8/10) ∧ ((6 : ℚ)/10 < 9/10) ∧ sentimentFor (8/10) (9/10) = "ally" :=
  ⟨by norm_num, by norm_num, (sentiment_pure_function_of_pair.2.1 (8/10) (9/10)).1
    (by norm_num) (by norm_num)⟩

/-- Claim C8: with `resources_required = [("food", 1)]` and an agent whose
resources cover it (food 5), the resource check passes but the deduction
splats the resource name into `adjust_resources`, which only accepts `money`
and `time` keywords: `Task.advance` raises a `TypeError` (modelled as `none`)
instead of deducting and returning normally. -/
theorem advance_raises_on_nonstandard_resource :
    checkResources tF.resources_required aF.resources = none ∧
    dictGetD aF.resources "food" 0 = 5 ∧
    Task.advance tF aF w0 = none :=
  ⟨rfl, rfl, rfl⟩

/-- Claim C9: a seed of 0 is falsy in `seed or random.randint(0, 99999)`, so
a Simulation constructed with seed 0 is exactly a Simulation constructed with
no seed — both take the fresh ambient draw, and two such constructions with
different ambient draws have different seed fields — while every nonzero seed
is used as given. -/
theorem seed_zero_treated_as_unseeded :
    (∀ (w : World) (f : Int), Simulation.init w (some 0) f = Simulation.init w none f) ∧
    (∀ (w : World) (f s : Int), s ≠ 0 → (Simulation.init w (some s) f).seed = s) ∧
    (Simulation.init w0 (some 0) 3).seed ≠ (Simulation.init w0 (some 0) 4).seed := by
  refine ⟨fun w f => rfl, fun w f s hs => ?_, by decide⟩
  simp [Simulation.init, hs]

theorem seed_zero_treated_as_unseeded_witness :
    ((5 : Int) ≠ 0) ∧ (Simulation.init w0 (some 5) 9).seed = 5 :=
  ⟨by decide, seed_zero_treated_as_unseeded.2.1 w0 9 5 (by decide)⟩

/-- Claim C10: a Relationship created lazily — by `get_relationship` on an
absent key, or by `influence_relationship` before its adjustment — starts
with closeness 1/10, trust 1/10 and sentiment neutral; the influence stores
exactly the adjustment of that default record. -/
theorem lazily_created_relationship_defaults (a : AgentState) (other : String) (aff : ℚ)
    (h : a.relationships.lookup other = none) :
    (a.get_relationship other).1 = ⟨other, 1/10, 1/10, "neutral"⟩ ∧
    (a.get_relationship other).2.relationships =
      a.relationships ++ [(other, ⟨other, 1/10, 1/10, "neutral"⟩)] ∧
    (a.influence_relationship other aff).relationships =
      a.relationships ++
        [(other, Relationship.adjust ⟨other, 1/10, 1/10, "neutral"⟩ (1/10 * aff) (1/10 * aff))] := by
  refine ⟨?_, ?_, ?_⟩
  · unfold AgentState.get_relationship
    rw [h]
  · unfold AgentState.get_relationship
    rw [h]
    simp [dictSet_of_lookup_none _ _ _ h]
  · unfold AgentState.influence_relationship AgentState.get_relationship
    rw [h]
    simp only
    rw [dictSet_of_lookup_none _ _ _ h, dictSet_append_last _ _ _ _ h]

lemma customize_fold_bounds (ov : List (String × ℚ)) :
    ∀ ts : List (String × ℚ), (∀ q ∈ ts.map Prod.snd, -1 ≤ q ∧ q ≤ 1) →
      ∀ q ∈ (ov.foldl
        (fun ts kv =>
          if TRAIT_KEYS.contains kv.1 then
            dictSet ts kv.1 (clampTrait (dictGetD ts kv.1 0 + kv.2))
          else ts)
        ts).map Prod.snd, -1 ≤ q ∧ q ≤ 1 := by
  induction ov with
  | nil => intro ts hts; simpa using hts
  | cons kv rest ih =>
    intro ts hts
    simp only [List.foldl_cons]
    apply ih
    intro q hq
    by_cases hk : TRAIT_KEYS.contains kv.1
    · rw [if_pos hk] at hq
      rcases dictSet_snd_mem _ _ _ _ hq with h | h
      · exact hts q h
      · rw [h]
        exact clampTrait_bounds _
    · rw [if_neg hk] at hq
      exact hts q hq

lemma personality_for_bounds (code : String) :
    ∀ q ∈ (personality_for code).trait_modifiers.map Prod.snd, -1 ≤ q ∧ q ≤ 1 := by
  intro q hq
  unfold personality_for at hq
  cases h : MBTI_PROFILES.lookup (pyToUpper code) with
  | none =>
    rw [h] at hq
    have : q = 0 := by
      simpa [TRAIT_KEYS] using hq
    rw [this]
    norm_num
  | some p =>
    rw [h] at hq
    have hp := lookup_mem_snd (pyToUpper code) p MBTI_PROFILES h
    have htable : ∀ p ∈ MBTI_PROFILES.map Prod.snd,
        ∀ q ∈ p.trait_modifiers.map Prod.snd, -1 ≤ q ∧ q ≤ 1 := by decide
    exact htable p hp q hq

lemma adjust_global_state_bounds (w : World) (de dc ds : ℚ) :
    unit01 (w.adjust_global_state de dc ds).economy ∧
    unit01 (w.adjust_global_state de dc ds).culture ∧
    unit01 (w.adjust_global_state de dc ds).stability := by
  refine ⟨?_, ?_, ?_⟩ <;> exact clamp01_unit _

/-- Claim C6: the clamped updates of the core keep every value inside its
documented interval for inputs of any magnitude and any number of
applications: emotion dimensions stay in the unit interval after any
adjustment, relationship closeness and trust stay in the unit interval after
any adjustment, traits are seeded inside the closed interval from -1 to 1 and
customization keeps them there, and the world's economy, culture and
stability never leave the unit interval under any sequence of
`adjust_global_state` calls. -/
theorem core_updates_stay_clamped :
    (∀ (a : AgentState) (dh ds de : ℚ),
      unit01 (a.adjust_emotion dh ds de).emotion.happiness ∧
      unit01 (a.adjust_emotion dh ds de).emotion.stress ∧
      unit01 (a.adjust_emotion dh ds de).emotion.energy) ∧
    (∀ (r : Relationship) (dc dt : ℚ),
      unit01 (r.adjust dc dt).closeness ∧ unit01 (r.adjust dc dt).trust) ∧
    (∀ (code : String), ∀ q ∈ (personality_for code).trait_modifiers.map Prod.snd,
      -1 ≤ q ∧ q ≤ 1) ∧
    (∀ (a : AgentState) (ov : List (String × ℚ)) (ms vs : List String),
      (∀ q ∈ a.traits.map Prod.snd, -1 ≤ q ∧ q ≤ 1) →
      ∀ q ∈ (a.customize ov ms vs).traits.map Prod.snd, -1 ≤ q ∧ q ≤ 1) ∧
    (∀ (w : World) (deltas : List (ℚ × ℚ × ℚ)),
      unit01 w.economy → unit01 w.culture → unit01 w.stability →
      unit01 (deltas.foldl (fun wa d => wa.adjust_global_state d.1 d.2.1 d.2.2) w).economy ∧
      unit01 (deltas.foldl (fun wa d => wa.adjust_global_state d.1 d.2.1 d.2.2) w).culture ∧
      unit01 (deltas.foldl (fun wa d => wa.adjust_global_state d.1 d.2.1 d.2.2) w).stability) := by
  refine ⟨?_, ?_, ?_, ?_, ?_⟩
  · intro a dh ds de
    exact ⟨clamp01_unit _, clamp01_unit _, clamp01_unit _⟩
  · intro r dc dt
    exact ⟨clamp01_unit _, clamp01_unit _⟩
  · exact personality_for_bounds
  · intro a ov ms vs hts
    exact customize_fold_bounds ov a.traits hts
  · intro w deltas
    induction deltas generalizing w with
    | nil => intro he hc hs; exact ⟨he, hc, hs⟩
    | cons d rest ih =>
      intro _ _ _
      simp only [List.foldl_cons]
      obtain ⟨h1, h2, h3⟩ := adjust_global_state_bounds w d.1 d.2.1 d.2.2
      exact ih _ h1 h2 h3

def dsW : List (ℚ × ℚ × ℚ) := [(5, -3, 100), (-7, 2, -9)]

theorem core_updates_stay_clamped_witness :
    unit01 w0.economy ∧ unit01 w0.culture ∧ unit01 w0.stability ∧
    (unit01 (dsW.foldl (fun wa d => wa.adjust_global_state d.1 d.2.1 d.2.2) w0).economy ∧
     unit01 (dsW.foldl (fun wa d => wa.adjust_global_state d.1 d.2.1 d.2.2) w0).culture ∧
     unit01 (dsW.foldl (fun wa d => wa.adjust_global_state d.1 d.2.1 d.2.2) w0).stability) :=
  ⟨by decide, by decide, by decide,
    core_updates_stay_clamped.2.2.2.2 w0 dsW (by decide) (by decide) (by decide)⟩

/-- Claim C1 (amended): for every nonzero seed, two Simulations constructed
with the same world and the same seed, configured by the same sequence of
add-agent, add-region and schedule-event calls, produce identical `run(N)`
output for every N: the fresh ambient draw of the constructor is not
consulted, and the embedded engine has no other source of nondeterminism. -/
theorem run_deterministic_for_nonzero_seed (w : World) (ops : List BuildOp) (s : Int)
    (hs : s ≠ 0) (f1 f2 : Int) (N : Nat) :
    (buildSim w (some s) f1 ops).runAux N = (buildSim w (some s) f2 ops).runAux N := by
  have h : Simulation.init w (some s) f1 = Simulation.init w (some s) f2 := by
    simp [Simulation.init, hs]
  unfold buildSim
  rw [h]

theorem run_deterministic_for_nonzero_seed_witness :
    ((7 : Int) ≠ 0) ∧
    (buildSim w0 (some 7) 1 opsC1).runAux 2 = (buildSim w0 (some 7) 2 opsC1).runAux 2 :=
  ⟨by decide, run_deterministic_for_nonzero_seed w0 opsC1 7 (by decide) 1 2 2⟩

set_option maxHeartbeats 4000000 in
/-- Claim C1 counterexample: a seed of 0 is discarded by the constructor in
favor of a fresh ambient draw, so two Simulations constructed with the same
world, the same seed 0 and the same three agents added in the same order —
one of which carries a task whose custom progress function reads the agent's
happiness — produce different `run(2)` sequences when the ambient draws
differ: the shuffled pairing differs, so agent X's tick-2 feedback message
reports a different progress delta. -/
theorem seed_zero_breaks_run_identity :
    (buildSim w0 (some 0) 1 opsC1).runAux 2 ≠ (buildSim w0 (some 0) 2 opsC1).runAux 2 := by
  decide

lemma applyWorldFeedback_tick_count (w : World) (ags : List (String × Agent)) :
    (applyWorldFeedback w ags).tick_count = w.tick_count := by
  unfold applyWorldFeedback
  split
  · rfl
  · simp [World.adjust_global_state]

lemma tick_components (s s1 : Simulation) (r : SimulationResult)
    (h : s.tick = some (s1, r)) :
    r.events = (triggerEvents s.world.tick s.agents s.scheduled_events).triggered ∧
    s1.scheduled_events = (triggerEvents s.world.tick s.agents s.scheduled_events).pending ∧
    s1.world.tick_count = (triggerEvents s.world.tick s.agents s.scheduled_events).world.tick_count := by
  unfold Simulation.tick at h
  dsimp only at h
  cases hap : agentPhase (triggerEvents s.world.tick s.agents s.scheduled_events).ags
      (triggerEvents s.world.tick s.agents s.scheduled_events).world with
  | none =>
    rw [hap] at h
    simp at h
  | some pr =>
    obtain ⟨ags3, feedback⟩ := pr
    rw [hap] at h
    simp only [Option.some.injEq, Prod.mk.injEq] at h
    obtain ⟨hs1, hr⟩ := h
    refine ⟨?_, ?_, ?_⟩
    · rw [← hr]
    · rw [← hs1]
    · rw [← hs1]
      exact applyWorldFeedback_tick_count _ _

lemma triggerEvents_nil (w : World) (ags : List (String × Agent)) :
    triggerEvents w ags [] = ⟨w, ags, [], []⟩ := rfl

lemma triggerEvents_single_not_due (w : World) (ags : List (String × Agent)) (n : Nat) (e : Event)
    (h : ¬ n ≤ w.tick_count) :
    triggerEvents w ags [⟨n, e⟩] = ⟨w, ags, [], [⟨n, e⟩]⟩ := by
  unfold triggerEvents
  simp [h]

lemma triggerEvents_single_due (w : World) (ags : List (String × Agent)) (n : Nat) (e : Event)
    (h : n ≤ w.tick_count) :
    triggerEvents w ags [⟨n, e⟩] = ⟨(e.apply w ags).1, (e.apply w ags).2, [e.description], []⟩ := by
  unfold triggerEvents
  simp [h]

lemma runAux_zero (s : Simulation) : s.runAux 0 = some [] := rfl

lemma runAux_succ_none (s : Simulation) (n : Nat) (h : s.tick = none) :
    s.runAux (n + 1) = none := by
  unfold Simulation.runAux
  rw [h]

lemma runAux_succ_some (s s1 : Simulation) (r : SimulationResult) (n : Nat)
    (h : s.tick = some (s1, r)) :
    s.runAux (n + 1) = (s1.runAux n).map (fun rs => r :: rs) := by
  have he : s.runAux (n + 1) = (match s.tick with
      | none => none
      | some (s1, r) =>
        match s1.runAux n with
        | none => none
        | some rs => some (r :: rs)) := rfl
  rw [he, h]
  show (match s1.runAux n with
      | none => none
      | some rs => some (r :: rs)) = (s1.runAux n).map (fun rs => r :: rs)
  cases h2 : s1.runAux n <;> rfl

lemma runAux_no_scheduled (d : String) :
    ∀ (n : Nat) (s : Simulation) (rs : List SimulationResult),
      s.scheduled_events = [] → s.runAux n = some rs →
      rs.map (hasEvent d) = List.replicate n false := by
  intro n
  induction n with
  | zero =>
    intro s rs _ h
    rw [runAux_zero] at h
    injection h with h
    rw [← h]
    rfl
  | succ m ih =>
    intro s rs hsch h
    cases htick : s.tick with
    | none =>
      rw [runAux_succ_none s m htick] at h
      cases h
    | some p =>
      obtain ⟨s1, r⟩ := p
      rw [runAux_succ_some s s1 r m htick] at h
      rcases Option.map_eq_some'.mp h with ⟨rs1, hrs1, hcons⟩
      obtain ⟨hev, hsch1, -⟩ := tick_components s s1 r htick
      rw [hsch, triggerEvents_nil] at hev hsch1
      rw [← hcons]
      simp only [List.map_cons, List.replicate_succ]
      rw [ih s1 rs1 hsch1 hrs1]
      have h1 : hasEvent d r = false := by
        rw [hasEvent, hev]
        rfl
      rw [h1]

/-- Claim C5: an event scheduled with `in_ticks = 2` while the tick counter
is 0 fires exactly once, on the second tick (where the counter becomes 2),
and never again: its description is absent from the first tick result,
present in the second, and absent from every later one, for every agent
registry and every run length of at least 2. -/
theorem scheduled_event_fires_exactly_on_second_tick
    (w : World) (ags : List (String × Agent)) (seed : Int) (rng : Rng)
    (hist : List SimulationResult) (e : Event) (N : Nat) (results : List SimulationResult)
    (hw : w.tick_count = 0) (hN : 2 ≤ N)
    (hrun : ((⟨w, seed, rng, ags, [], hist⟩ : Simulation).schedule_event e 2).runAux N =
      some results) :
    results.map (hasEvent e.description) = false :: true :: List.replicate (N - 2) false := by
  obtain ⟨m, rfl⟩ : ∃ m, N = m + 2 := ⟨N - 2, by omega⟩
  have hsch0 : ((⟨w, seed, rng, ags, [], hist⟩ : Simulation).schedule_event e 2) =
      ⟨w, seed, rng, ags, [⟨2, e⟩], hist⟩ := by
    simp [Simulation.schedule_event, hw]
  rw [hsch0] at hrun
  cases htick1 : (⟨w, seed, rng, ags, [⟨2, e⟩], hist⟩ : Simulation).tick with
  | none =>
    rw [show m + 2 = (m + 1) + 1 from rfl, runAux_succ_none _ (m + 1) htick1] at hrun
    cases hrun
  | some p1 =>
    obtain ⟨s1, r1⟩ := p1
    rw [show m + 2 = (m + 1) + 1 from rfl, runAux_succ_some _ s1 r1 (m + 1) htick1] at hrun
    rcases Option.map_eq_some'.mp hrun with ⟨rs1, hrun1, hcons1⟩
    obtain ⟨hev1, hsch1, htc1⟩ := tick_components _ s1 r1 htick1
    simp only at hev1 hsch1 htc1
    have hwt1 : (World.tick w).tick_count = 1 := by simp [World.tick, hw]
    have hnot : ¬ (2 ≤ (World.tick w).tick_count) := by rw [hwt1]; omega
    rw [triggerEvents_single_not_due _ _ _ _ hnot] at hev1 hsch1 htc1
    rw [hwt1] at htc1
    cases htick2 : s1.tick with
    | none =>
      rw [runAux_succ_none s1 m htick2] at hrun1
      cases hrun1
    | some p2 =>
      obtain ⟨s2, r2⟩ := p2
      rw [runAux_succ_some s1 s2 r2 m htick2] at hrun1
      rcases Option.map_eq_some'.mp hrun1 with ⟨rs2, hrun2, hcons2⟩
      obtain ⟨hev2, hsch2, -⟩ := tick_components s1 s2 r2 htick2
      have hwt2 : (World.tick s1.world).tick_count = 2 := by simp [World.tick, htc1]
      have hdue : (2 : Nat) ≤ (World.tick s1.world).tick_count := by rw [hwt2]
      rw [hsch1, triggerEvents_single_due _ _ _ _ hdue] at hev2 hsch2
      have hrest := runAux_no_scheduled e.description m s2 rs2 hsch2 hrun2
      rw [← hcons1, ← hcons2]
      simp only [List.map_cons]
      rw [hrest]
      have h1 : hasEvent e.description r1 = false := by
        rw [hasEvent, hev1]
        rfl
      have h2 : hasEvent e.description r2 = true := by
        rw [hasEvent, hev2]
        simp [List.contains]
      rw [h1, h2, Nat.add_sub_cancel]

def simC5W : Simulation := (⟨w0, 1, mkRng 1, [], [], []⟩ : Simulation).schedule_event e0 2

def resultsC5W : List SimulationResult := (simC5W.runAux 4).getD []

theorem scheduled_event_fires_exactly_on_second_tick_witness :
    w0.tick_count = 0 ∧ (2 : Nat) ≤ 4 ∧
    resultsC5W.map (hasEvent e0.description) = false :: true :: List.replicate (4 - 2) false :=
  ⟨rfl, by decide,
    scheduled_event_fires_exactly_on_second_tick w0 [] 1 (mkRng 1) [] e0 4 resultsC5W rfl
      (by decide) rfl⟩

theorem lazily_created_relationship_defaults_witness :
    a4.relationships.lookup "Eve" = none ∧
    ((a4.get_relationship "Eve").1 = ⟨"Eve", 1/10, 1/10, "neutral"⟩ ∧
     (a4.get_relationship "Eve").2.relationships =
       a4.relationships ++ [("Eve", ⟨"Eve", 1/10, 1/10, "neutral"⟩)] ∧
     (a4.influence_relationship "Eve" 2).relationships =
       a4.relationships ++
         [("Eve", Relationship.adjust ⟨"Eve", 1/10, 1/10, "neutral"⟩ (1/10 * 2) (1/10 * 2))]) :=
  ⟨rfl, lazily_created_relationship_defaults a4 "Eve" 2 rfl⟩

end PixelSociety
